import Mathlib

/-!
# go-rtsp: the stream manager (`internal/stream/manager.go`)

A shallow embedding of the stream registry of the RTSP-to-HLS streamer and the
properties of its operations: `StartStream`, `StopStream`, `GetStreamStatus`,
`UpdateStreamAccess`, `GetActiveStreamCount`, the exit observer goroutine that
`StartStream` registers, and one tick of `cleanupWorker`.

The manager's mutex serialises every operation, so each operation is modelled as
one atomic step on the manager state.  Everything the operating system decides
(the clock, directory creation, process spawn, kill, process exit) is read from
an explicit environment `Env`; the calls an operation issues are returned as a
list of `Effect`s.  Log output is not modelled.  A record is only ever stored
after `cmd.Start()` succeeded, so a non-nil `Process` always carries a started
process.  The `range` loop of `cleanupWorker` visits the entries in the order of
the entry list; the loop's result does not depend on that order.
-/

namespace Stream

/-! ## Data model -/

/-- Identity of a spawned converter process (an `*exec.Cmd` after `Start`). -/
abbrev Proc := Nat

/-- An instant of `time.Time`, in nanoseconds. -/
abbrev Time := Int

/-- A `time.Duration`: a signed 64-bit count of nanoseconds. -/
abbrev Duration := Int

/-- The largest `time.Duration`, `1<<63 - 1`. -/
def maxDuration : Duration := 2 ^ 63 - 1

/-- The smallest `time.Duration`, `-1 << 63`. -/
def minDuration : Duration := -2 ^ 63

/-- The method `Time.Sub`: the difference `t - u`, saturated to the range of
`time.Duration`. -/
def Time.Sub (t u : Time) : Duration :=
  if t - u > maxDuration then maxDuration
  else if t - u < minDuration then minDuration
  else t - u

/-- The struct `StreamInfo`.  `Process` is `none` for a nil `*exec.Cmd`. -/
structure StreamInfo where
  IndicatorID : String
  RTSPLink : String
  Process : Option Proc
  StartTime : Time
  LastAccess : Time
  StreamPath : String
  IsActive : Bool
  deriving DecidableEq, Repr

/-- The struct `config.Config`. -/
structure Config where
  StreamDir : String
  CleanupDelay : Duration
  HLSSegmentTime : Int
  HLSListSize : Int
  deriving DecidableEq, Repr

/-! ## The map `map[string]*StreamInfo` -/

/-- Value stored under key `k` in an association list, if any. -/
def lookupE (k : String) : List (String × StreamInfo) → Option StreamInfo
  | [] => none
  | (k', v) :: es => if k' = k then some v else lookupE k es

/-- Association list without the entries under key `k`. -/
def deleteE (k : String) : List (String × StreamInfo) → List (String × StreamInfo)
  | [] => []
  | (k', v) :: es => if k' = k then deleteE k es else (k', v) :: deleteE k es

/-- Association list with `f` applied to the value under key `k`. -/
def modifyE (k : String) (f : StreamInfo → StreamInfo) :
    List (String × StreamInfo) → List (String × StreamInfo)
  | [] => []
  | (k', v) :: es => if k' = k then (k', f v) :: modifyE k f es else (k', v) :: modifyE k f es

/-- Keys of an association list. -/
def keysE (es : List (String × StreamInfo)) : List String := es.map Prod.fst

/-- The map `m.streams`: a finite map from indicator id to stream record, held as
a list of entries with pairwise distinct keys. -/
structure Streams where
  entries : List (String × StreamInfo)
  nodup : (keysE entries).Nodup

namespace Streams

/-- The empty map, `make(map[string]*StreamInfo)`. -/
def empty : Streams := ⟨[], List.nodup_nil⟩

/-- The map read `m.streams[k]` with its `exists` flag. -/
def lookup (s : Streams) (k : String) : Option StreamInfo := lookupE k s.entries

/-- The keys of the map. -/
def keys (s : Streams) : List String := keysE s.entries

/-- The builtin `delete(m.streams, k)`. -/
def delete (s : Streams) (k : String) : Streams :=
  ⟨deleteE k s.entries, by
    have hsub : ∀ es : List (String × StreamInfo), (keysE (deleteE k es)).Sublist (keysE es) := by
      intro es
      induction es with
      | nil => exact List.Sublist.slnil
      | cons e es ih =>
        obtain ⟨k', v⟩ := e
        unfold deleteE
        by_cases h : k' = k
        · simp only [h, if_true]; exact List.Sublist.cons _ ih
        · simp only [h, if_false]; exact List.Sublist.cons₂ _ ih
    exact s.nodup.sublist (hsub s.entries)⟩

/-- A field assignment through the pointer stored under `k`. -/
def modify (s : Streams) (k : String) (f : StreamInfo → StreamInfo) : Streams :=
  ⟨modifyE k f s.entries, by
    have hkeys : ∀ es : List (String × StreamInfo), keysE (modifyE k f es) = keysE es := by
      intro es
      induction es with
      | nil => rfl
      | cons e es ih =>
        obtain ⟨k', v⟩ := e
        unfold modifyE
        by_cases h : k' = k
        · simp only [h, if_true]; simpa [keysE] using ih
        · simp only [h, if_false]; simpa [keysE] using ih
    rw [hkeys]; exact s.nodup⟩

/-- The map write `m.streams[k] = v`. -/
def set (s : Streams) (k : String) (v : StreamInfo) : Streams :=
  ⟨(k, v) :: (s.delete k).entries, by
    have hnot : ∀ es : List (String × StreamInfo), k ∉ keysE (deleteE k es) := by
      intro es
      induction es with
      | nil => simp [deleteE, keysE]
      | cons e es ih =>
        obtain ⟨k', v'⟩ := e
        unfold deleteE
        by_cases h : k' = k
        · simp only [h, if_true]; exact ih
        · simp only [h, if_false]
          intro hm
          simp only [keysE, List.map_cons, List.mem_cons] at hm
          rcases hm with hm | hm
          · exact h hm.symm
          · exact ih hm
    have h1 : k ∉ keysE (s.delete k).entries := hnot s.entries
    have h2 := (s.delete k).nodup
    simpa [keysE] using And.intro (by simpa [keysE] using h1) (by simpa [keysE] using h2)⟩

end Streams

/-! ## The manager and its environment -/

/-- The struct `Manager` (its mutex is the atomicity of the steps below). -/
structure Manager where
  config : Config
  streams : Streams

/-- How a converter process ended: with an exit code, or killed by a signal. -/
inductive ExitStatus where
  | exited (code : Nat)
  | signaled (sig : Nat)
  deriving DecidableEq, Repr

/-- The error of `cmd.Wait()` (package `os/exec`): nil exactly when the command
exits with status zero, an `*ExitError` otherwise. -/
def Wait : ExitStatus → Option String
  | .exited 0 => none
  | .exited (n + 1) => some ("exit status " ++ toString (n + 1))
  | .signaled sig => some ("signal: " ++ toString sig)

/-- What the operating system and the standard library answer during one step.
`Now n` is the `n`-th reading of `time.Now()` in the step; `MkdirAll` and `Kill`
give the error of the call, if any; `Start` gives the spawned process or the
error of `cmd.Start()`; `ProcessState` is the way a process ends; `Join` is
`filepath.Join`. -/
structure Env where
  Now : Nat → Time
  MkdirAll : String → Option String
  Start : String → List String → Except String Proc
  Kill : Proc → Option String
  ProcessState : Proc → ExitStatus
  Join : String → String → String

/-- A call issued to the operating system, or a goroutine started, by a step. -/
inductive Effect where
  | MkdirAll (path : String)
  | Start (name : String) (args : List String)
  | Kill (p : Proc)
  | RemoveAll (path : String)
  | Go (indicatorID : String) (cmd : Proc)
  deriving DecidableEq, Repr

/-- Outcome of one step: the returned value, the manager afterwards and the
effects issued, in order. -/
structure Step (α : Type) where
  ret : α
  m : Manager
  effects : List Effect

/-! ## Operations -/

/-- The assignment `stream.LastAccess = t`. -/
def setLastAccess (t : Time) (stream : StreamInfo) : StreamInfo :=
  { stream with LastAccess := t }

/-- The assignment `stream.IsActive = b`. -/
def setIsActive (b : Bool) (stream : StreamInfo) : StreamInfo :=
  { stream with IsActive := b }

/-- The method `cleanupStreamFiles`: removes the stream directory of the id. -/
def cleanupStreamFiles (env : Env) (m : Manager) (indicatorID : String) : List Effect :=
  let streamDir := env.Join m.config.StreamDir indicatorID
  [Effect.RemoveAll streamDir]

/-- The argument vector of the `ffmpeg` command built by `StartStream`. -/
def ffmpegArgs (m : Manager) (rtspLink outputPath : String) : List String :=
  ["-rtsp_transport", "tcp",
   "-i", rtspLink,
   "-c:v", "libx264",
   "-preset", "ultrafast",
   "-f", "hls",
   "-hls_time", toString m.config.HLSSegmentTime,
   "-hls_list_size", toString m.config.HLSListSize,
   "-hls_flags", "delete_segments",
   "-y",
   outputPath]

/-- The method `StartStream`.  The result is the pair `(string, error)`. -/
def StartStream (env : Env) (m : Manager) (indicatorID rtspLink : String) :
    Step (String × Option String) :=
  match (m.streams.lookup indicatorID).filter (fun stream => stream.IsActive) with
  | some stream =>
    ⟨(stream.StreamPath, none),
     { m with streams := m.streams.modify indicatorID (setLastAccess (env.Now 0)) },
     []⟩
  | none =>
    let streamDir := env.Join m.config.StreamDir indicatorID
    match env.MkdirAll streamDir with
    | some err =>
      ⟨("", some ("failed to create stream directory: " ++ err)), m,
       [Effect.MkdirAll streamDir]⟩
    | none =>
      let streamPath := "/streams/" ++ indicatorID ++ "/stream.m3u8"
      let outputPath := env.Join streamDir "stream.m3u8"
      let args := ffmpegArgs m rtspLink outputPath
      match env.Start "ffmpeg" args with
      | .error err =>
        ⟨("", some ("failed to start ffmpeg: " ++ err)), m,
         [Effect.MkdirAll streamDir, Effect.Start "ffmpeg" args]⟩
      | .ok cmd =>
        let streamInfo : StreamInfo :=
          { IndicatorID := indicatorID
            RTSPLink := rtspLink
            Process := some cmd
            StartTime := env.Now 0
            LastAccess := env.Now 1
            StreamPath := streamPath
            IsActive := true }
        ⟨(streamPath, none),
         { m with streams := m.streams.set indicatorID streamInfo },
         [Effect.MkdirAll streamDir, Effect.Start "ffmpeg" args, Effect.Go indicatorID cmd]⟩

/-- The goroutine started by `StartStream` for the command `cmd` under
`indicatorID`: one step, taken when `cmd.Wait()` returns. -/
def exitObserver (env : Env) (m : Manager) (indicatorID : String) (cmd : Proc) : Manager :=
  match Wait (env.ProcessState cmd) with
  | some _ =>
    match m.streams.lookup indicatorID with
    | some _ =>
      { m with streams := m.streams.modify indicatorID (setIsActive false) }
    | none => m
  | none => m

/-- The method `StopStream`.  The result is the returned error, if any. -/
def StopStream (env : Env) (m : Manager) (indicatorID : String) : Step (Option String) :=
  match m.streams.lookup indicatorID with
  | none => ⟨some ("stream not found: " ++ indicatorID), m, []⟩
  | some stream =>
    match stream.Process, stream.IsActive with
    | some p, true =>
      match env.Kill p with
      | some err => ⟨some ("failed to kill process: " ++ err), m, [Effect.Kill p]⟩
      | none =>
        let streams := m.streams.modify indicatorID (setIsActive false)
        ⟨none, { m with streams := streams.delete indicatorID },
         Effect.Kill p :: cleanupStreamFiles env m indicatorID⟩
    | _, _ =>
      ⟨none, { m with streams := m.streams.delete indicatorID },
       cleanupStreamFiles env m indicatorID⟩

/-- The method `GetStreamStatus`. -/
def GetStreamStatus (m : Manager) (indicatorID : String) : String :=
  match m.streams.lookup indicatorID with
  | none => "not_found"
  | some stream => if !stream.IsActive then "stopped" else "active"

/-- The method `UpdateStreamAccess`.  The result is the returned error, if any. -/
def UpdateStreamAccess (env : Env) (m : Manager) (indicatorID : String) :
    Step (Option String) :=
  match m.streams.lookup indicatorID with
  | none => ⟨some ("stream not found: " ++ indicatorID), m, []⟩
  | some stream =>
    if !stream.IsActive then
      ⟨some ("stream is not active: " ++ indicatorID), m, []⟩
    else
      ⟨none,
       { m with streams := m.streams.modify indicatorID (setLastAccess (env.Now 0)) },
       []⟩

/-- The method `GetActiveStreamCount`: the counting loop over the map. -/
def GetActiveStreamCount (m : Manager) : Nat :=
  m.streams.entries.foldl (fun count e => if e.2.IsActive then count + 1 else count) 0

/-- The condition under which a tick of `cleanupWorker` evicts a record. -/
def expired (config : Config) (now : Time) (stream : StreamInfo) : Bool :=
  let timeSinceAccess := Time.Sub now stream.LastAccess
  stream.IsActive && decide (timeSinceAccess > config.CleanupDelay)

/-- Body of the `range m.streams` loop of `cleanupWorker` for one key.  A key
whose entry is no longer in the map is not produced by the iteration. -/
def cleanupEntry (env : Env) (now : Time) (st : Step Unit) (indicatorID : String) :
    Step Unit :=
  match st.m.streams.lookup indicatorID with
  | none => st
  | some stream =>
    if expired st.m.config now stream then
      let killed : List Effect :=
        match stream.Process with
        | some p => [Effect.Kill p]
        | none => []
      let streams := st.m.streams.modify indicatorID (setIsActive false)
      ⟨(), { st.m with streams := streams.delete indicatorID },
       st.effects ++ killed ++ cleanupStreamFiles env st.m indicatorID⟩
    else st

/-- One tick of the method `cleanupWorker`: the locked scan of the whole map. -/
def cleanupTick (env : Env) (m : Manager) : Step Unit :=
  let now := env.Now 0
  m.streams.keys.foldl (cleanupEntry env now) ⟨(), m, []⟩

/-- The method `cleanupWorker`, run for the ticks whose environments are given. -/
def cleanupWorker (ticks : List Env) (m : Manager) : Manager :=
  ticks.foldl (fun m env => (cleanupTick env m).m) m

/-! ## Counting helpers -/

/-- Contribution of a looked-up record to the active count. -/
def activeOf : Option StreamInfo → Nat
  | some v => if v.IsActive then 1 else 0
  | none => 0

/-- Number of entries whose record is active. -/
def activeE (es : List (String × StreamInfo)) : Nat := es.countP (fun e => e.2.IsActive)

/-- The calls a tick of `cleanupWorker` issues to evict one entry: the kill of
its process, if it has one, and the removal of its directory. -/
def evictEffects (env : Env) (config : Config) (e : String × StreamInfo) : List Effect :=
  (match e.2.Process with
   | some p => [Effect.Kill p]
   | none => []) ++ [Effect.RemoveAll (env.Join config.StreamDir e.1)]

/-- The calls a tick of `cleanupWorker` issues over a list of entries. -/
def sweepEffects (env : Env) (config : Config) (now : Time) :
    List (String × StreamInfo) → List Effect
  | [] => []
  | e :: es =>
    if expired config now e.2 then evictEffects env config e ++ sweepEffects env config now es
    else sweepEffects env config now es

/-! ## Concrete inputs -/

/-- A configuration with a cleanup delay of thirty seconds. -/
def exConfig : Config :=
  { StreamDir := "./streams", CleanupDelay := 30000000000, HLSSegmentTime := 2, HLSListSize := 5 }

/-- An environment in which every call succeeds, the spawned process is `7`,
and processes end killed by signal 9. -/
def exEnv : Env :=
  { Now := fun n => 1000 + n
    MkdirAll := fun _ => none
    Start := fun _ _ => Except.ok 7
    Kill := fun _ => none
    ProcessState := fun _ => ExitStatus.signaled 9
    Join := fun dir name => dir ++ "/" ++ name }

/-- The record of an active stream `cam1` served by process `3`. -/
def exRecord : StreamInfo :=
  { IndicatorID := "cam1"
    RTSPLink := "rtsp://x"
    Process := some 3
    StartTime := 10
    LastAccess := 20
    StreamPath := "/streams/cam1/stream.m3u8"
    IsActive := true }

/-- A manager with no stream. -/
def exEmpty : Manager := ⟨exConfig, Streams.empty⟩

/-- A manager whose only stream is the active `cam1`. -/
def exManager : Manager := ⟨exConfig, ⟨[("cam1", exRecord)], by decide⟩⟩

/-- A manager whose only stream is `cam1`, marked not active. -/
def exStopped : Manager := ⟨exConfig, ⟨[("cam1", setIsActive false exRecord)], by decide⟩⟩

/-- The environment `exEnv`, except that every kill fails: the process has
already exited. -/
def exEnvKillFails : Env :=
  { exEnv with Kill := fun _ => some "os: process already finished" }

/-- The environment `exEnv`, except that processes end on their own with exit
status 1. -/
def exEnvCrash : Env :=
  { exEnv with ProcessState := fun _ => ExitStatus.exited 1 }

/-- The environment `exEnv`, except that processes end on their own with exit
status 0. -/
def exEnvClean : Env :=
  { exEnv with ProcessState := fun _ => ExitStatus.exited 0 }

/-- The record of an active stream `cam2` served by process `4`, last accessed
at instant `40000000000`. -/
def exRecord2 : StreamInfo :=
  { IndicatorID := "cam2"
    RTSPLink := "rtsp://y"
    Process := some 4
    StartTime := 30
    LastAccess := 40000000000
    StreamPath := "/streams/cam2/stream.m3u8"
    IsActive := true }

/-- A manager with the active streams `cam1` and `cam2`. -/
def exTwo : Manager := ⟨exConfig, ⟨[("cam1", exRecord), ("cam2", exRecord2)], by decide⟩⟩

/-- The environment `exEnvKillFails` at the instant `50000000000`: `cam1` of
`exTwo` has been idle for more than thirty seconds, `cam2` for ten. -/
def exEnvSweep : Env :=
  { exEnvKillFails with Now := fun _ => 50000000000 }

/-! ## Lemmas on the map -/

theorem keysE_modifyE (k : String) (f : StreamInfo → StreamInfo)
    (es : List (String × StreamInfo)) : keysE (modifyE k f es) = keysE es := by
  induction es with
  | nil => rfl
  | cons e es ih =>
    obtain ⟨k', v⟩ := e
    unfold modifyE
    by_cases h : k' = k
    · simp only [h, if_true]; simpa [keysE] using ih
    · simp only [h, if_false]; simpa [keysE] using ih

theorem lookupE_eq_none_iff (k : String) (es : List (String × StreamInfo)) :
    lookupE k es = none ↔ k ∉ keysE es := by
  induction es with
  | nil => simp [lookupE, keysE]
  | cons e es ih =>
    obtain ⟨k', v⟩ := e
    unfold lookupE
    by_cases h : k' = k
    · simp [h, keysE]
    · have h' : ¬ k = k' := fun e => h e.symm
      simp only [h, if_false, ih, keysE, List.map_cons, List.mem_cons, h', false_or]

theorem deleteE_of_not_mem (k : String) (es : List (String × StreamInfo))
    (hk : k ∉ keysE es) : deleteE k es = es := by
  induction es with
  | nil => rfl
  | cons e es ih =>
    obtain ⟨k', v⟩ := e
    simp only [keysE, List.map_cons, List.mem_cons, not_or] at hk
    have h : ¬ k' = k := fun e => hk.1 e.symm
    unfold deleteE
    simp only [h, if_false]
    rw [ih hk.2]

theorem modifyE_of_not_mem (k : String) (f : StreamInfo → StreamInfo)
    (es : List (String × StreamInfo)) (hk : k ∉ keysE es) : modifyE k f es = es := by
  induction es with
  | nil => rfl
  | cons e es ih =>
    obtain ⟨k', v⟩ := e
    simp only [keysE, List.map_cons, List.mem_cons, not_or] at hk
    have h : ¬ k' = k := fun e => hk.1 e.symm
    unfold modifyE
    simp only [h, if_false]
    rw [ih hk.2]

theorem lookupE_modifyE (k k' : String) (f : StreamInfo → StreamInfo)
    (es : List (String × StreamInfo)) :
    lookupE k' (modifyE k f es) = if k' = k then (lookupE k es).map f else lookupE k' es := by
  induction es with
  | nil => simp [lookupE, modifyE]
  | cons e es ih =>
    obtain ⟨k₀, v⟩ := e
    by_cases h0 : k₀ = k
    · by_cases h1 : k' = k
      · simp [lookupE, modifyE, h0, h1]
      · have h2 : ¬ k = k' := fun e => h1 e.symm
        simp [lookupE, modifyE, h0, h1, h2, ih]
    · by_cases h1 : k' = k
      · subst h1
        simp only [if_true] at ih
        simp [lookupE, modifyE, h0, ih]
      · simp [lookupE, modifyE, h0, h1, ih]

theorem lookupE_deleteE (k k' : String) (es : List (String × StreamInfo)) :
    lookupE k' (deleteE k es) = if k' = k then none else lookupE k' es := by
  induction es with
  | nil => simp [lookupE, deleteE]
  | cons e es ih =>
    obtain ⟨k₀, v⟩ := e
    by_cases h0 : k₀ = k
    · by_cases h1 : k' = k
      · subst h1
        simp only [if_true] at ih
        simp [deleteE, h0, ih]
      · have h2 : ¬ k = k' := fun e => h1 e.symm
        simp [lookupE, deleteE, h0, h1, h2, ih]
    · by_cases h1 : k' = k
      · subst h1
        simp only [if_true] at ih
        simp [lookupE, deleteE, h0, ih]
      · simp [lookupE, deleteE, h0, h1, ih]

theorem deleteE_modifyE (k : String) (f : StreamInfo → StreamInfo)
    (es : List (String × StreamInfo)) : deleteE k (modifyE k f es) = deleteE k es := by
  induction es with
  | nil => rfl
  | cons e es ih =>
    obtain ⟨k₀, v⟩ := e
    by_cases h0 : k₀ = k
    · simp [deleteE, modifyE, h0, ih]
    · simp [deleteE, modifyE, h0, ih]

theorem activeE_cons (e : String × StreamInfo) (es : List (String × StreamInfo)) :
    activeE (e :: es) = activeOf (some e.2) + activeE es := by
  unfold activeE activeOf
  by_cases h : e.2.IsActive = true
  · simp [List.countP_cons, h, Nat.add_comm]
  · simp [List.countP_cons, h]

theorem activeE_deleteE (k : String) (es : List (String × StreamInfo))
    (hn : (keysE es).Nodup) :
    activeE (deleteE k es) + activeOf (lookupE k es) = activeE es := by
  induction es with
  | nil => simp [deleteE, lookupE, activeE, activeOf]
  | cons e es ih =>
    obtain ⟨k₀, v⟩ := e
    simp only [keysE, List.map_cons, List.nodup_cons] at hn
    by_cases h0 : k₀ = k
    · have hk : k ∉ keysE es := by rw [← h0]; exact hn.1
      simp only [deleteE, lookupE, h0, if_true, deleteE_of_not_mem k es hk]
      rw [activeE_cons]; exact Nat.add_comm _ _
    · simp only [deleteE, lookupE, h0, if_false]
      rw [activeE_cons, activeE_cons, Nat.add_assoc, ih hn.2]

theorem activeE_modifyE (k : String) (f : StreamInfo → StreamInfo)
    (es : List (String × StreamInfo)) (hn : (keysE es).Nodup) :
    activeE (modifyE k f es) + activeOf (lookupE k es) =
      activeE es + activeOf ((lookupE k es).map f) := by
  induction es with
  | nil => simp [modifyE, lookupE, activeE, activeOf]
  | cons e es ih =>
    obtain ⟨k₀, v⟩ := e
    simp only [keysE, List.map_cons, List.nodup_cons] at hn
    by_cases h0 : k₀ = k
    · have hk : k ∉ keysE es := by rw [← h0]; exact hn.1
      simp only [modifyE, lookupE, h0, if_true, modifyE_of_not_mem k f es hk, Option.map_some']
      rw [activeE_cons, activeE_cons]
      simp only []
      omega
    · simp only [modifyE, lookupE, h0, if_false]
      rw [activeE_cons, activeE_cons]
      have := ih hn.2
      omega

theorem foldl_count_eq (es : List (String × StreamInfo)) (n : Nat) :
    es.foldl (fun count e => if e.2.IsActive then count + 1 else count) n = n + activeE es := by
  induction es generalizing n with
  | nil => simp [activeE]
  | cons e es ih =>
    rw [List.foldl_cons, ih, activeE_cons]
    by_cases h : e.2.IsActive = true
    · simp [h, activeOf]; omega
    · simp [h, activeOf]

theorem GetActiveStreamCount_eq (m : Manager) :
    GetActiveStreamCount m = activeE m.streams.entries := by
  unfold GetActiveStreamCount
  rw [foldl_count_eq]; simp

namespace Streams

theorem lookup_modify (s : Streams) (k k' : String) (f : StreamInfo → StreamInfo) :
    (s.modify k f).lookup k' = if k' = k then (s.lookup k).map f else s.lookup k' :=
  lookupE_modifyE k k' f s.entries

theorem lookup_delete (s : Streams) (k k' : String) :
    (s.delete k).lookup k' = if k' = k then none else s.lookup k' :=
  lookupE_deleteE k k' s.entries

theorem lookup_set (s : Streams) (k k' : String) (v : StreamInfo) :
    (s.set k v).lookup k' = if k' = k then some v else s.lookup k' := by
  show lookupE k' ((k, v) :: deleteE k s.entries) = _
  by_cases h : k' = k
  · simp [lookupE, h]
  · have h2 : ¬ k = k' := fun e => h e.symm
    simp only [lookupE, h, h2, if_false, lookupE_deleteE]
    rfl

theorem keys_modify (s : Streams) (k : String) (f : StreamInfo → StreamInfo) :
    (s.modify k f).keys = s.keys :=
  keysE_modifyE k f s.entries

theorem delete_modify (s : Streams) (k : String) (f : StreamInfo → StreamInfo) :
    (s.modify k f).delete k = s.delete k := by
  unfold delete modify
  simp only [deleteE_modifyE]

end Streams

theorem notFound_ne_notActive (indicatorID : String) :
    "stream not found: " ++ indicatorID ≠ "stream is not active: " ++ indicatorID := by
  intro h
  have h2 := congrArg String.data h
  simp only [String.data_append] at h2
  have h3 := congrArg (fun l => l.get? 7) h2
  simp at h3

theorem activeOf_setLastAccess (t : Time) (o : Option StreamInfo) :
    activeOf (o.map (setLastAccess t)) = activeOf o := by
  cases o <;> rfl

theorem GetActiveStreamCount_touch (m : Manager) (k : String) (t : Time) :
    GetActiveStreamCount { m with streams := m.streams.modify k (setLastAccess t) } =
      GetActiveStreamCount m := by
  rw [GetActiveStreamCount_eq, GetActiveStreamCount_eq]
  have h := activeE_modifyE k (setLastAccess t) m.streams.entries m.streams.nodup
  rw [activeOf_setLastAccess] at h
  exact Nat.add_right_cancel h

/-! ## StartStream on an active id -/

/-- C1. Idempotent start: when `indicatorID` has a record with `IsActive = true`,
`StartStream` returns that record's `StreamPath` with no error, issues no call
at all (no directory creation, no spawn, no observer), keeps the set of ids and
the active count, and changes nothing but that record's `LastAccess`, which
becomes the current time. -/
theorem StartStream_idempotent (env : Env) (m : Manager) (indicatorID rtspLink : String)
    (stream : StreamInfo) (hrec : m.streams.lookup indicatorID = some stream)
    (hact : stream.IsActive = true) :
    (StartStream env m indicatorID rtspLink).ret = (stream.StreamPath, none) ∧
    (StartStream env m indicatorID rtspLink).effects = [] ∧
    (StartStream env m indicatorID rtspLink).m.config = m.config ∧
    (StartStream env m indicatorID rtspLink).m.streams.keys = m.streams.keys ∧
    GetActiveStreamCount (StartStream env m indicatorID rtspLink).m = GetActiveStreamCount m ∧
    (StartStream env m indicatorID rtspLink).m.streams.lookup indicatorID =
      some { stream with LastAccess := env.Now 0 } ∧
    ∀ k, k ≠ indicatorID →
      (StartStream env m indicatorID rtspLink).m.streams.lookup k = m.streams.lookup k := by
  have hf : (m.streams.lookup indicatorID).filter (fun stream => stream.IsActive) = some stream := by
    rw [hrec]; simp [Option.filter, hact]
  have hS : StartStream env m indicatorID rtspLink =
      ⟨(stream.StreamPath, none),
       { m with streams := m.streams.modify indicatorID (setLastAccess (env.Now 0)) }, []⟩ := by
    unfold StartStream
    rw [hf]
  rw [hS]
  refine ⟨rfl, rfl, rfl, Streams.keys_modify _ _ _, GetActiveStreamCount_touch _ _ _, ?_, ?_⟩
  · show (m.streams.modify indicatorID _).lookup indicatorID = _
    rw [Streams.lookup_modify, if_pos rfl, hrec]
    rfl
  · intro k hk
    show (m.streams.modify indicatorID _).lookup k = _
    rw [Streams.lookup_modify, if_neg hk]

theorem StartStream_idempotent_witness :
    (StartStream exEnv exManager "cam1" "rtsp://y").ret = ("/streams/cam1/stream.m3u8", none) ∧
    (StartStream exEnv exManager "cam1" "rtsp://y").effects = [] ∧
    GetActiveStreamCount (StartStream exEnv exManager "cam1" "rtsp://y").m = 1 :=
  have h := StartStream_idempotent exEnv exManager "cam1" "rtsp://y" exRecord (by decide) (by decide)
  ⟨h.1, h.2.1, h.2.2.2.2.1.trans (by decide)⟩

/-! ## StartStream on failure -/

/-- C7. Start is atomic on failure: whenever `StartStream` returns an error
(directory creation or process start failed), the manager afterwards is exactly
the manager before the call. -/
theorem StartStream_error_unchanged (env : Env) (m : Manager) (indicatorID rtspLink : String)
    (herr : (StartStream env m indicatorID rtspLink).ret.2 ≠ none) :
    (StartStream env m indicatorID rtspLink).m = m := by
  unfold StartStream at herr ⊢
  split
  · next stream hf =>
    rw [hf] at herr
    exact absurd rfl herr
  · next hf =>
    rw [hf] at herr
    simp only at herr ⊢
    split
    · rfl
    · next hmk =>
      rw [hmk] at herr
      simp only at herr ⊢
      split
      · rfl
      · next cmd hst =>
        rw [hst] at herr
        exact absurd rfl herr

theorem StartStream_error_unchanged_witness :
    (StartStream { exEnv with MkdirAll := fun _ => some "permission denied" }
        exStopped "cam1" "rtsp://x").ret.2 ≠ none ∧
    (StartStream { exEnv with MkdirAll := fun _ => some "permission denied" }
        exStopped "cam1" "rtsp://x").m = exStopped :=
  ⟨by decide,
   StartStream_error_unchanged { exEnv with MkdirAll := fun _ => some "permission denied" }
     exStopped "cam1" "rtsp://x" (by decide)⟩

/-! ## StartStream on an id without active record -/

theorem GetActiveStreamCount_set (m : Manager) (k : String) (v : StreamInfo) :
    GetActiveStreamCount { m with streams := m.streams.set k v } + activeOf (m.streams.lookup k) =
      GetActiveStreamCount m + activeOf (some v) := by
  rw [GetActiveStreamCount_eq, GetActiveStreamCount_eq]
  show activeE ((k, v) :: deleteE k m.streams.entries) + activeOf (lookupE k m.streams.entries) = _
  rw [activeE_cons]
  have h := activeE_deleteE k m.streams.entries m.streams.nodup
  simp only []
  omega

/-- C9. Fresh start: when `indicatorID` has no active record (none at all, or one
with `IsActive = false`) and both the directory creation and the process start
succeed, `StartStream` returns the descriptor `/streams/<id>/stream.m3u8` with no
error and stores under the id a record that is active, carries the given link,
the new process and that descriptor; the status of the id is then `active`, the
active count has grown by exactly one and the records of all other ids are
unchanged. -/
theorem StartStream_fresh (env : Env) (m : Manager) (indicatorID rtspLink : String)
    (cmd : Proc)
    (hrec : ∀ stream, m.streams.lookup indicatorID = some stream → stream.IsActive = false)
    (hdir : env.MkdirAll (env.Join m.config.StreamDir indicatorID) = none)
    (hstart : env.Start "ffmpeg" (ffmpegArgs m rtspLink
        (env.Join (env.Join m.config.StreamDir indicatorID) "stream.m3u8")) = Except.ok cmd) :
    (StartStream env m indicatorID rtspLink).ret =
      ("/streams/" ++ indicatorID ++ "/stream.m3u8", none) ∧
    (StartStream env m indicatorID rtspLink).m.streams.lookup indicatorID =
      some { IndicatorID := indicatorID
             RTSPLink := rtspLink
             Process := some cmd
             StartTime := env.Now 0
             LastAccess := env.Now 1
             StreamPath := "/streams/" ++ indicatorID ++ "/stream.m3u8"
             IsActive := true } ∧
    GetStreamStatus (StartStream env m indicatorID rtspLink).m indicatorID = "active" ∧
    GetActiveStreamCount (StartStream env m indicatorID rtspLink).m =
      GetActiveStreamCount m + 1 ∧
    (∀ k, k ≠ indicatorID →
      (StartStream env m indicatorID rtspLink).m.streams.lookup k = m.streams.lookup k) ∧
    (StartStream env m indicatorID rtspLink).m.config = m.config := by
  have hf : (m.streams.lookup indicatorID).filter (fun stream => stream.IsActive) = none := by
    cases hl : m.streams.lookup indicatorID with
    | none => rfl
    | some stream => simp [Option.filter, hrec stream hl]
  have h0 : activeOf (m.streams.lookup indicatorID) = 0 := by
    cases hl : m.streams.lookup indicatorID with
    | none => rfl
    | some stream => simp [activeOf, hrec stream hl]
  unfold StartStream
  rw [hf]
  simp only [hdir, hstart]
  have hl : ∀ v, ({ m with streams := m.streams.set indicatorID v } : Manager).streams.lookup
      indicatorID = some v := by
    intro v
    show (m.streams.set indicatorID v).lookup indicatorID = _
    rw [Streams.lookup_set, if_pos rfl]
  refine ⟨trivial, hl _, ?_, ?_, ?_, trivial⟩
  · unfold GetStreamStatus
    rw [hl]
    rfl
  · have h := GetActiveStreamCount_set m indicatorID
      { IndicatorID := indicatorID
        RTSPLink := rtspLink
        Process := some cmd
        StartTime := env.Now 0
        LastAccess := env.Now 1
        StreamPath := "/streams/" ++ indicatorID ++ "/stream.m3u8"
        IsActive := true }
    rw [h0] at h
    simpa [activeOf] using h
  · intro k hk
    show (m.streams.set indicatorID _).lookup k = _
    rw [Streams.lookup_set, if_neg hk]

theorem StartStream_fresh_witness :
    (StartStream exEnv exStopped "cam1" "rtsp://x").ret = ("/streams/cam1/stream.m3u8", none) ∧
    GetStreamStatus (StartStream exEnv exStopped "cam1" "rtsp://x").m "cam1" = "active" ∧
    GetActiveStreamCount (StartStream exEnv exStopped "cam1" "rtsp://x").m = 1 :=
  have h := StartStream_fresh exEnv exStopped "cam1" "rtsp://x" 7
    (by decide) rfl rfl
  ⟨h.1.trans (by decide), h.2.2.1, h.2.2.2.1.trans (by decide)⟩

/-! ## UpdateStreamAccess -/

/-- C6. The heartbeat result is decided by the record's state: the call fails
with the not-found error exactly when the id has no record, fails with the
not-active error (a different message) exactly when the id has a record with
`IsActive = false`, and otherwise succeeds; a failing call leaves the manager
unchanged, and a successful one changes only `LastAccess` of that record, which
becomes the current time, and no other record. -/
theorem UpdateStreamAccess_result (env : Env) (m : Manager) (indicatorID : String) :
    ((UpdateStreamAccess env m indicatorID).ret = some ("stream not found: " ++ indicatorID) ↔
      m.streams.lookup indicatorID = none) ∧
    ((UpdateStreamAccess env m indicatorID).ret = some ("stream is not active: " ++ indicatorID) ↔
      ∃ stream, m.streams.lookup indicatorID = some stream ∧ stream.IsActive = false) ∧
    "stream not found: " ++ indicatorID ≠ "stream is not active: " ++ indicatorID ∧
    ((UpdateStreamAccess env m indicatorID).ret ≠ none →
      (UpdateStreamAccess env m indicatorID).m = m) ∧
    (∀ stream, m.streams.lookup indicatorID = some stream → stream.IsActive = true →
      (UpdateStreamAccess env m indicatorID).ret = none ∧
      (UpdateStreamAccess env m indicatorID).m.streams.lookup indicatorID =
        some { stream with LastAccess := env.Now 0 } ∧
      (∀ k, k ≠ indicatorID →
        (UpdateStreamAccess env m indicatorID).m.streams.lookup k = m.streams.lookup k) ∧
      (UpdateStreamAccess env m indicatorID).m.streams.keys = m.streams.keys ∧
      (UpdateStreamAccess env m indicatorID).m.config = m.config) := by
  have hne := notFound_ne_notActive indicatorID
  unfold UpdateStreamAccess
  cases hl : m.streams.lookup indicatorID with
  | none =>
    refine ⟨by simp, ?_, hne, fun _ => rfl, ?_⟩
    · constructor
      · intro h; exact absurd (Option.some.inj h) hne
      · rintro ⟨stream, h, _⟩; exact Option.noConfusion h
    · intro stream h; exact Option.noConfusion h
  | some stream =>
    by_cases ha : stream.IsActive = true
    · simp only [ha, Bool.not_true, Bool.false_eq_true, if_false]
      refine ⟨by simp, ?_, hne, ?_, ?_⟩
      · constructor
        · intro h; exact Option.noConfusion h
        · rintro ⟨stream', h, h'⟩
          have hs : stream = stream' := Option.some.inj h
          rw [← hs, ha] at h'
          exact Bool.noConfusion h'
      · intro h; exact absurd rfl h
      · intro stream' h _
        have hs : stream = stream' := Option.some.inj h
        subst hs
        refine ⟨trivial, ?_, ?_, Streams.keys_modify _ _ _, trivial⟩
        · show (m.streams.modify indicatorID _).lookup indicatorID = _
          rw [Streams.lookup_modify, if_pos rfl, hl]; rfl
        · intro k hk
          show (m.streams.modify indicatorID _).lookup k = _
          rw [Streams.lookup_modify, if_neg hk]
    · have ha' : stream.IsActive = false := by simpa using ha
      simp only [ha', Bool.not_false, if_true]
      refine ⟨?_, ?_, hne, fun _ => trivial, ?_⟩
      · constructor
        · intro h; exact absurd (Option.some.inj h).symm hne
        · intro h; exact Option.noConfusion h
      · constructor
        · intro _; exact ⟨stream, rfl, ha'⟩
        · intro _; trivial
      · intro stream' h h'
        have hs : stream = stream' := Option.some.inj h
        rw [← hs] at h'
        exact absurd h' ha

theorem UpdateStreamAccess_result_witness :
    (UpdateStreamAccess exEnv exEmpty "cam1").ret = some "stream not found: cam1" ∧
    (UpdateStreamAccess exEnv exStopped "cam1").ret = some "stream is not active: cam1" ∧
    (UpdateStreamAccess exEnv exManager "cam1").ret = none ∧
    (UpdateStreamAccess exEnv exManager "cam1").m.streams.lookup "cam1" =
      some { exRecord with LastAccess := 1000 } :=
  ⟨((UpdateStreamAccess_result exEnv exEmpty "cam1").1.mpr (by decide)).trans (by decide),
   ((UpdateStreamAccess_result exEnv exStopped "cam1").2.1.mpr
      ⟨setIsActive false exRecord, by decide, by decide⟩).trans (by decide),
   ((UpdateStreamAccess_result exEnv exManager "cam1").2.2.2.2 exRecord
      (by decide) (by decide)).1,
   (((UpdateStreamAccess_result exEnv exManager "cam1").2.2.2.2 exRecord
      (by decide) (by decide)).2.1).trans (by decide)⟩

/-! ## StopStream -/

theorem StopStream_none (env : Env) (m : Manager) (indicatorID : String)
    (hrec : m.streams.lookup indicatorID = none) :
    StopStream env m indicatorID = ⟨some ("stream not found: " ++ indicatorID), m, []⟩ := by
  unfold StopStream
  rw [hrec]

theorem StopStream_kill_failed (env : Env) (m : Manager) (indicatorID : String)
    (stream : StreamInfo) (p : Proc) (err : String)
    (hrec : m.streams.lookup indicatorID = some stream) (hp : stream.Process = some p)
    (hact : stream.IsActive = true) (hkill : env.Kill p = some err) :
    StopStream env m indicatorID = ⟨some ("failed to kill process: " ++ err), m, [Effect.Kill p]⟩ := by
  unfold StopStream
  rw [hrec]
  simp only [hp, hact, hkill]

theorem StopStream_removed (env : Env) (m : Manager) (indicatorID : String)
    (stream : StreamInfo) (hrec : m.streams.lookup indicatorID = some stream)
    (hok : stream.Process = none ∨ stream.IsActive = false ∨
      ∃ p, stream.Process = some p ∧ env.Kill p = none) :
    (StopStream env m indicatorID).ret = none ∧
    (StopStream env m indicatorID).m = { m with streams := m.streams.delete indicatorID } := by
  unfold StopStream
  rw [hrec]
  cases hp : stream.Process with
  | none => simp only [hp]; exact ⟨trivial, trivial⟩
  | some p =>
    cases ha : stream.IsActive with
    | false => simp only [hp, ha]; exact ⟨trivial, trivial⟩
    | true =>
      rcases hok with h | h | ⟨q, hq, hk⟩
      · rw [hp] at h; exact Option.noConfusion h
      · rw [ha] at h; exact Bool.noConfusion h
      · rw [hp] at hq
        have hpq : p = q := Option.some.inj hq
        subst hpq
        simp only [hp, ha, hk, Streams.delete_modify]
        exact ⟨trivial, trivial⟩

theorem GetStreamStatus_of_none (m : Manager) (indicatorID : String)
    (h : m.streams.lookup indicatorID = none) : GetStreamStatus m indicatorID = "not_found" := by
  unfold GetStreamStatus
  rw [h]

/-- C8. Stop is not idempotent on absence: when the id has no record,
`StopStream` returns the not-found error, issues no call (so no kill) and leaves
the manager unchanged; and after any successful `StopStream` of an id, a second
`StopStream` of the same id on the resulting manager returns the not-found
error. -/
theorem StopStream_absent (env env' : Env) (m : Manager) (indicatorID : String) :
    (m.streams.lookup indicatorID = none →
      (StopStream env m indicatorID).ret = some ("stream not found: " ++ indicatorID) ∧
      (StopStream env m indicatorID).effects = [] ∧
      (StopStream env m indicatorID).m = m) ∧
    ((StopStream env m indicatorID).ret = none →
      (StopStream env' (StopStream env m indicatorID).m indicatorID).ret =
        some ("stream not found: " ++ indicatorID) ∧
      (StopStream env' (StopStream env m indicatorID).m indicatorID).effects = [] ∧
      (StopStream env' (StopStream env m indicatorID).m indicatorID).m =
        (StopStream env m indicatorID).m) := by
  have habs : ∀ (e : Env) (m₀ : Manager), m₀.streams.lookup indicatorID = none →
      (StopStream e m₀ indicatorID).ret = some ("stream not found: " ++ indicatorID) ∧
      (StopStream e m₀ indicatorID).effects = [] ∧
      (StopStream e m₀ indicatorID).m = m₀ := by
    intro e m₀ h
    rw [StopStream_none e m₀ indicatorID h]
    exact ⟨rfl, rfl, rfl⟩
  refine ⟨habs env m, ?_⟩
  intro hok
  apply habs
  cases hl : m.streams.lookup indicatorID with
  | none =>
    rw [StopStream_none env m indicatorID hl] at hok
    exact Option.noConfusion hok
  | some stream =>
    cases hp : stream.Process with
    | none =>
      rw [(StopStream_removed env m indicatorID stream hl (Or.inl hp)).2]
      show (m.streams.delete indicatorID).lookup indicatorID = none
      rw [Streams.lookup_delete, if_pos rfl]
    | some p =>
      cases ha : stream.IsActive with
      | false =>
        rw [(StopStream_removed env m indicatorID stream hl (Or.inr (Or.inl ha))).2]
        show (m.streams.delete indicatorID).lookup indicatorID = none
        rw [Streams.lookup_delete, if_pos rfl]
      | true =>
        cases hk : env.Kill p with
        | some err =>
          rw [StopStream_kill_failed env m indicatorID stream p err hl hp ha hk] at hok
          exact Option.noConfusion hok
        | none =>
          rw [(StopStream_removed env m indicatorID stream hl (Or.inr (Or.inr ⟨p, hp, hk⟩))).2]
          show (m.streams.delete indicatorID).lookup indicatorID = none
          rw [Streams.lookup_delete, if_pos rfl]

theorem StopStream_absent_witness :
    (StopStream exEnv exEmpty "cam1").ret = some "stream not found: cam1" ∧
    (StopStream exEnv exManager "cam1").ret = none ∧
    (StopStream exEnv (StopStream exEnv exManager "cam1").m "cam1").ret =
      some "stream not found: cam1" :=
  ⟨((StopStream_absent exEnv exEnv exEmpty "cam1").1 (by decide)).1.trans (by decide),
   by decide,
   ((StopStream_absent exEnv exEnv exManager "cam1").2 (by decide)).1.trans (by decide)⟩

/-- C2, on the input where it fails: `cam1` is active and its process has already
exited, so the kill fails; `StopStream` returns the kill error and the record is
still there, still active. -/
theorem StopStream_kill_failure_keeps_record :
    (StopStream exEnvKillFails exManager "cam1").ret =
      some "failed to kill process: os: process already finished" ∧
    (StopStream exEnvKillFails exManager "cam1").m.streams.lookup "cam1" = some exRecord ∧
    GetStreamStatus (StopStream exEnvKillFails exManager "cam1").m "cam1" = "active" := by
  decide

/-- C2, amended. For an id that has a record: when the record has no process, is
not active, or the kill succeeds, `StopStream` returns success, the id has no
record afterwards (its status is `not_found`) and the other records are
unchanged; when the record is active with a process and the kill fails,
`StopStream` returns the error `failed to kill process: <cause>` and the manager
is unchanged, the record still present. -/
theorem StopStream_existing (env : Env) (m : Manager) (indicatorID : String)
    (stream : StreamInfo) (hrec : m.streams.lookup indicatorID = some stream) :
    ((stream.Process = none ∨ stream.IsActive = false ∨
        ∃ p, stream.Process = some p ∧ env.Kill p = none) →
      (StopStream env m indicatorID).ret = none ∧
      (StopStream env m indicatorID).m.streams.lookup indicatorID = none ∧
      GetStreamStatus (StopStream env m indicatorID).m indicatorID = "not_found" ∧
      (∀ k, k ≠ indicatorID →
        (StopStream env m indicatorID).m.streams.lookup k = m.streams.lookup k) ∧
      (StopStream env m indicatorID).m.config = m.config) ∧
    (∀ p err, stream.Process = some p → stream.IsActive = true → env.Kill p = some err →
      (StopStream env m indicatorID).ret = some ("failed to kill process: " ++ err) ∧
      (StopStream env m indicatorID).m = m ∧
      (StopStream env m indicatorID).m.streams.lookup indicatorID = some stream) := by
  constructor
  · intro hok
    obtain ⟨hret, hm⟩ := StopStream_removed env m indicatorID stream hrec hok
    have hl : (StopStream env m indicatorID).m.streams.lookup indicatorID = none := by
      rw [hm]
      show (m.streams.delete indicatorID).lookup indicatorID = none
      rw [Streams.lookup_delete, if_pos rfl]
    refine ⟨hret, hl, GetStreamStatus_of_none _ _ hl, ?_, ?_⟩
    · intro k hk
      rw [hm]
      show (m.streams.delete indicatorID).lookup k = _
      rw [Streams.lookup_delete, if_neg hk]
    · rw [hm]
  · intro p err hp ha hk
    rw [StopStream_kill_failed env m indicatorID stream p err hrec hp ha hk]
    exact ⟨rfl, rfl, hrec⟩

theorem StopStream_existing_witness :
    (StopStream exEnv exManager "cam1").ret = none ∧
    GetStreamStatus (StopStream exEnv exManager "cam1").m "cam1" = "not_found" ∧
    (StopStream exEnvKillFails exManager "cam1").m = exManager :=
  have h := (StopStream_existing exEnv exManager "cam1" exRecord (by decide)).1
    (Or.inr (Or.inr ⟨3, by decide, rfl⟩))
  have h' := (StopStream_existing exEnvKillFails exManager "cam1" exRecord (by decide)).2
    3 "os: process already finished" (by decide) (by decide) rfl
  ⟨h.1, h.2.2.1, h'.2.1⟩

/-! ## The exit observer -/

theorem Wait_eq_none_iff (st : ExitStatus) : Wait st = none ↔ st = ExitStatus.exited 0 := by
  cases st with
  | exited code =>
    cases code with
    | zero => simp [Wait]
    | succ n => simp [Wait]
  | signaled sig => simp [Wait]

theorem exitObserver_flip (env : Env) (m : Manager) (indicatorID : String) (cmd : Proc)
    (stream : StreamInfo) (hrec : m.streams.lookup indicatorID = some stream)
    (hwait : Wait (env.ProcessState cmd) ≠ none) :
    exitObserver env m indicatorID cmd =
      { m with streams := m.streams.modify indicatorID (setIsActive false) } := by
  unfold exitObserver
  cases hw : Wait (env.ProcessState cmd) with
  | none => exact absurd hw hwait
  | some err => simp only [hrec]

theorem exitObserver_lookup (env : Env) (m : Manager) (indicatorID : String) (cmd : Proc)
    (stream : StreamInfo) (hrec : m.streams.lookup indicatorID = some stream)
    (hwait : Wait (env.ProcessState cmd) ≠ none) :
    (exitObserver env m indicatorID cmd).streams.lookup indicatorID =
      some { stream with IsActive := false } := by
  rw [exitObserver_flip env m indicatorID cmd stream hrec hwait]
  show (m.streams.modify indicatorID _).lookup indicatorID = _
  rw [Streams.lookup_modify, if_pos rfl, hrec]
  rfl

theorem exitObserver_other (env : Env) (m : Manager) (indicatorID : String) (cmd : Proc)
    (k : String) (hk : k ≠ indicatorID) :
    (exitObserver env m indicatorID cmd).streams.lookup k = m.streams.lookup k := by
  unfold exitObserver
  cases Wait (env.ProcessState cmd) with
  | none => rfl
  | some err =>
    cases hl : m.streams.lookup indicatorID with
    | none => rfl
    | some stream =>
      show (m.streams.modify indicatorID _).lookup k = _
      rw [Streams.lookup_modify, if_neg hk]

theorem GetStreamStatus_of_inactive (m : Manager) (indicatorID : String) (stream : StreamInfo)
    (h : m.streams.lookup indicatorID = some stream) (ha : stream.IsActive = false) :
    GetStreamStatus m indicatorID = "stopped" := by
  unfold GetStreamStatus
  rw [h]
  simp [ha]

theorem GetActiveStreamCount_flip (m : Manager) (indicatorID : String) (stream : StreamInfo)
    (hrec : m.streams.lookup indicatorID = some stream) :
    GetActiveStreamCount { m with streams := m.streams.modify indicatorID (setIsActive false) } +
      activeOf (some stream) = GetActiveStreamCount m := by
  rw [GetActiveStreamCount_eq, GetActiveStreamCount_eq]
  have h := activeE_modifyE indicatorID (setIsActive false) m.streams.entries m.streams.nodup
  have hrec' : lookupE indicatorID m.streams.entries = some stream := hrec
  rw [hrec'] at h
  have h0 : activeOf (Option.map (setIsActive false) (some stream)) = 0 := rfl
  rw [h0] at h
  exact h

/-- C3, on the input where it fails: `cam1` is active, its process ends on its
own with exit status 1 and nobody calls `StopStream`; after the observer's step
the status of `cam1` is `stopped`, not `not_found`, and the record is still
stored. -/
theorem exitObserver_crash_leaves_stopped_record :
    GetStreamStatus (exitObserver exEnvCrash exManager "cam1" 3) "cam1" = "stopped" ∧
    GetStreamStatus (exitObserver exEnvCrash exManager "cam1" 3) "cam1" ≠ "not_found" ∧
    (exitObserver exEnvCrash exManager "cam1" 3).streams.lookup "cam1" =
      some { exRecord with IsActive := false } := by
  decide

/-- C3, amended. Crash absorption: when the id has an active record and its
process exits on its own with `Wait` returning a failure, then after the
observer's step, with no call to `StopStream`, the record is still stored under
the id with `IsActive = false` and all other fields unchanged, the status of the
id is `stopped`, and the set of ids is the same. -/
theorem exitObserver_crash (env : Env) (m : Manager) (indicatorID : String) (cmd : Proc)
    (stream : StreamInfo) (hrec : m.streams.lookup indicatorID = some stream)
    (hact : stream.IsActive = true) (hwait : Wait (env.ProcessState cmd) ≠ none) :
    GetStreamStatus m indicatorID = "active" ∧
    GetStreamStatus (exitObserver env m indicatorID cmd) indicatorID = "stopped" ∧
    (exitObserver env m indicatorID cmd).streams.lookup indicatorID =
      some { stream with IsActive := false } ∧
    (exitObserver env m indicatorID cmd).streams.keys = m.streams.keys := by
  have hl := exitObserver_lookup env m indicatorID cmd stream hrec hwait
  refine ⟨?_, GetStreamStatus_of_inactive _ _ _ hl rfl, hl, ?_⟩
  · unfold GetStreamStatus
    rw [hrec]
    simp [hact]
  · rw [exitObserver_flip env m indicatorID cmd stream hrec hwait]
    exact Streams.keys_modify _ _ _

theorem exitObserver_crash_witness :
    GetStreamStatus exManager "cam1" = "active" ∧
    GetStreamStatus (exitObserver exEnvCrash exManager "cam1" 3) "cam1" = "stopped" :=
  have h := exitObserver_crash exEnvCrash exManager "cam1" 3 exRecord
    (by decide) (by decide) (by simp [Wait, exEnvCrash])
  ⟨h.1, h.2.1⟩

/-- C4, on the input where it fails: the record stored under `cam1` references
process `3`, and the observer registered for the earlier process `2`, which was
killed, takes its step; the record of process `3` is flipped to not active. -/
theorem exitObserver_stale_flips_new_record :
    exManager.streams.lookup "cam1" = some exRecord ∧
    exRecord.Process = some 3 ∧
    exitObserver exEnv exManager "cam1" 2 ≠ exManager ∧
    (exitObserver exEnv exManager "cam1" 2).streams.lookup "cam1" =
      some { exRecord with IsActive := false } ∧
    GetStreamStatus (exitObserver exEnv exManager "cam1" 2) "cam1" = "stopped" := by
  refine ⟨by decide, by decide, ?_, by decide, by decide⟩
  intro h
  have h2 : (exitObserver exEnv exManager "cam1" 2).streams.lookup "cam1" =
      exManager.streams.lookup "cam1" := by rw [h]
  revert h2
  decide

/-- C4, amended. The exit observer registered for process `cmd` under an id finds
the record by id alone: when `Wait` fails and a record is stored under the id,
whatever process that record references, the step sets its `IsActive` to false
and leaves its other fields unchanged; records under other ids are never
changed, and the manager is unchanged when no record is stored under the id or
`Wait` returns no error. -/
theorem exitObserver_by_id (env : Env) (m : Manager) (indicatorID : String) (cmd : Proc) :
    (∀ stream, m.streams.lookup indicatorID = some stream →
      Wait (env.ProcessState cmd) ≠ none →
      (exitObserver env m indicatorID cmd).streams.lookup indicatorID =
        some { stream with IsActive := false }) ∧
    (∀ k, k ≠ indicatorID →
      (exitObserver env m indicatorID cmd).streams.lookup k = m.streams.lookup k) ∧
    (m.streams.lookup indicatorID = none → exitObserver env m indicatorID cmd = m) ∧
    (Wait (env.ProcessState cmd) = none → exitObserver env m indicatorID cmd = m) := by
  refine ⟨fun stream hrec hwait => exitObserver_lookup env m indicatorID cmd stream hrec hwait,
    fun k hk => exitObserver_other env m indicatorID cmd k hk, ?_, ?_⟩
  · intro hnone
    unfold exitObserver
    rw [hnone]
    cases Wait (env.ProcessState cmd) <;> rfl
  · intro hw
    unfold exitObserver
    rw [hw]

theorem exitObserver_by_id_witness :
    (exitObserver exEnv exManager "cam1" 2).streams.lookup "cam1" =
      some { exRecord with IsActive := false } ∧
    exitObserver exEnv exEmpty "cam1" 2 = exEmpty ∧
    exitObserver exEnvClean exManager "cam1" 3 = exManager :=
  ⟨(exitObserver_by_id exEnv exManager "cam1" 2).1 exRecord (by decide) (by simp [Wait, exEnv]),
   (exitObserver_by_id exEnv exEmpty "cam1" 2).2.2.1 (by decide),
   (exitObserver_by_id exEnvClean exManager "cam1" 3).2.2.2 (by decide)⟩

/-- C10, on the input where it fails: `cam1` is active and its process `3` exits
cleanly with status zero; the observer's step changes nothing and `cam1` is
still active and still counted. -/
theorem exitObserver_clean_exit_stays_active :
    exRecord.Process = some 3 ∧
    exEnvClean.ProcessState 3 = ExitStatus.exited 0 ∧
    GetStreamStatus (exitObserver exEnvClean exManager "cam1" 3) "cam1" = "active" ∧
    GetActiveStreamCount (exitObserver exEnvClean exManager "cam1" 3) = 1 := by
  decide

/-- C10, amended. The exit observer acts on every exit for which `Wait` returns
an error: for a record stored under the id and a process that ends with a
non-zero exit status or by a signal, after the observer's step the record is not
active, the status of the id is not `active` and the record is not counted by
`GetActiveStreamCount`; when the process exits with status zero the observer
leaves the manager unchanged. -/
theorem exitObserver_every_failed_exit (env : Env) (m : Manager) (indicatorID : String)
    (cmd : Proc) (stream : StreamInfo) (hrec : m.streams.lookup indicatorID = some stream) :
    (env.ProcessState cmd ≠ ExitStatus.exited 0 →
      (exitObserver env m indicatorID cmd).streams.lookup indicatorID =
        some { stream with IsActive := false } ∧
      GetStreamStatus (exitObserver env m indicatorID cmd) indicatorID ≠ "active" ∧
      GetActiveStreamCount (exitObserver env m indicatorID cmd) + activeOf (some stream) =
        GetActiveStreamCount m) ∧
    (env.ProcessState cmd = ExitStatus.exited 0 → exitObserver env m indicatorID cmd = m) := by
  constructor
  · intro hst
    have hwait : Wait (env.ProcessState cmd) ≠ none :=
      fun h => hst ((Wait_eq_none_iff _).mp h)
    have hl := exitObserver_lookup env m indicatorID cmd stream hrec hwait
    refine ⟨hl, ?_, ?_⟩
    · rw [GetStreamStatus_of_inactive _ _ _ hl rfl]
      decide
    · rw [exitObserver_flip env m indicatorID cmd stream hrec hwait]
      exact GetActiveStreamCount_flip m indicatorID stream hrec
  · intro hst
    unfold exitObserver
    rw [hst]
    rfl

theorem exitObserver_every_failed_exit_witness :
    GetStreamStatus (exitObserver exEnv exManager "cam1" 3) "cam1" ≠ "active" ∧
    GetActiveStreamCount (exitObserver exEnv exManager "cam1" 3) + 1 = 1 ∧
    GetActiveStreamCount (exitObserver exEnvCrash exManager "cam1" 3) + 1 = 1 :=
  have h := (exitObserver_every_failed_exit exEnv exManager "cam1" 3 exRecord (by decide)).1
    (by decide)
  have h' := (exitObserver_every_failed_exit exEnvCrash exManager "cam1" 3 exRecord
    (by decide)).1 (by decide)
  ⟨h.2.1, h.2.2, h'.2.2⟩

/-! ## The cleanup worker -/

theorem keysE_append (a b : List (String × StreamInfo)) :
    keysE (a ++ b) = keysE a ++ keysE b := by
  simp [keysE]

theorem nodup_mid (pre rest : List (String × StreamInfo)) (k : String) (v : StreamInfo)
    (hn : (keysE (pre ++ (k, v) :: rest)).Nodup) : k ∉ keysE pre ∧ k ∉ keysE rest := by
  rw [keysE_append, List.nodup_append] at hn
  obtain ⟨_, h2, h3⟩ := hn
  have h2' : (k :: keysE rest).Nodup := h2
  rw [List.nodup_cons] at h2'
  refine ⟨?_, h2'.1⟩
  intro hk
  exact h3 hk (List.mem_cons_self _ _)

theorem lookupE_append_of_not_mem (k : String) (a b : List (String × StreamInfo))
    (hk : k ∉ keysE a) : lookupE k (a ++ b) = lookupE k b := by
  induction a with
  | nil => rfl
  | cons e a ih =>
    obtain ⟨k', v⟩ := e
    simp only [keysE, List.map_cons, List.mem_cons, not_or] at hk
    have h : ¬ k' = k := fun e => hk.1 e.symm
    simp only [List.cons_append, lookupE, h, if_false]
    exact ih hk.2

theorem deleteE_append (k : String) (a b : List (String × StreamInfo)) :
    deleteE k (a ++ b) = deleteE k a ++ deleteE k b := by
  induction a with
  | nil => rfl
  | cons e a ih =>
    obtain ⟨k', v⟩ := e
    by_cases h : k' = k
    · simp [deleteE, h, ih]
    · simp [deleteE, h, ih]

theorem cleanupEntry_step (env : Env) (now : Time) (st : Step Unit)
    (pre rest : List (String × StreamInfo)) (k : String) (v : StreamInfo)
    (hst : st.m.streams.entries = pre ++ (k, v) :: rest) :
    (cleanupEntry env now st k).m.streams.entries =
      (if expired st.m.config now v then pre else pre ++ [(k, v)]) ++ rest ∧
    (cleanupEntry env now st k).m.config = st.m.config ∧
    (cleanupEntry env now st k).effects =
      st.effects ++
        (if expired st.m.config now v then evictEffects env st.m.config (k, v) else []) := by
  have hn : (keysE (pre ++ (k, v) :: rest)).Nodup := by rw [← hst]; exact st.m.streams.nodup
  obtain ⟨hpre, hrest⟩ := nodup_mid pre rest k v hn
  have hl : st.m.streams.lookup k = some v := by
    show lookupE k st.m.streams.entries = some v
    rw [hst, lookupE_append_of_not_mem k pre _ hpre]
    simp [lookupE]
  unfold cleanupEntry
  rw [hl]
  by_cases hx : expired st.m.config now v = true
  · simp only [hx, if_true]
    refine ⟨?_, trivial, ?_⟩
    · show deleteE k (modifyE k (setIsActive false) st.m.streams.entries) = pre ++ rest
      rw [deleteE_modifyE, hst, deleteE_append, deleteE_of_not_mem k pre hpre]
      simp [deleteE, deleteE_of_not_mem k rest hrest]
    · simp only [evictEffects, cleanupStreamFiles, List.append_assoc]
  · simp only [hx, if_false]
    simp [hst]

theorem cleanup_fold (env : Env) (now : Time) :
    ∀ (suf pre : List (String × StreamInfo)) (st : Step Unit),
      st.m.streams.entries = pre ++ suf →
      ((keysE suf).foldl (cleanupEntry env now) st).m.streams.entries =
        pre ++ suf.filter (fun e => !expired st.m.config now e.2) ∧
      ((keysE suf).foldl (cleanupEntry env now) st).m.config = st.m.config ∧
      ((keysE suf).foldl (cleanupEntry env now) st).effects =
        st.effects ++ sweepEffects env st.m.config now suf := by
  intro suf
  induction suf with
  | nil =>
    intro pre st hst
    simp [keysE, sweepEffects, hst]
  | cons e suf ih =>
    intro pre st hst
    obtain ⟨k, v⟩ := e
    obtain ⟨h1, h2, h3⟩ := cleanupEntry_step env now st pre suf k v hst
    have hfold : (keysE ((k, v) :: suf)).foldl (cleanupEntry env now) st =
        (keysE suf).foldl (cleanupEntry env now) (cleanupEntry env now st k) := rfl
    rw [hfold]
    obtain ⟨i1, i2, i3⟩ := ih _ (cleanupEntry env now st k) h1
    rw [h2] at i1 i3
    refine ⟨?_, i2.trans h2, ?_⟩
    · rw [i1]
      by_cases hx : expired st.m.config now v = true
      · simp [hx, List.filter_cons]
      · simp [hx, List.filter_cons]
    · rw [i3, h3]
      by_cases hx : expired st.m.config now v = true
      · simp [hx, sweepEffects]
      · simp [hx, sweepEffects]

theorem cleanupTick_entries (env : Env) (m : Manager) :
    (cleanupTick env m).m.streams.entries =
      m.streams.entries.filter (fun e => !expired m.config (env.Now 0) e.2) ∧
    (cleanupTick env m).m.config = m.config ∧
    (cleanupTick env m).effects = sweepEffects env m.config (env.Now 0) m.streams.entries := by
  have h := cleanup_fold env (env.Now 0) m.streams.entries [] ⟨(), m, []⟩ rfl
  simpa [cleanupTick, Streams.keys] using h

theorem mem_of_lookupE (k : String) (v : StreamInfo) (es : List (String × StreamInfo))
    (h : lookupE k es = some v) : (k, v) ∈ es := by
  induction es with
  | nil => exact Option.noConfusion h
  | cons e es ih =>
    obtain ⟨k', v'⟩ := e
    by_cases hk : k' = k
    · simp only [lookupE, hk, if_true] at h
      rw [hk, Option.some.inj h]
      exact List.mem_cons_self _ _
    · simp only [lookupE, hk, if_false] at h
      exact List.mem_cons_of_mem _ (ih h)

theorem lookupE_of_mem (k : String) (v : StreamInfo) (es : List (String × StreamInfo))
    (hn : (keysE es).Nodup) (h : (k, v) ∈ es) : lookupE k es = some v := by
  induction es with
  | nil => exact absurd h (List.not_mem_nil _)
  | cons e es ih =>
    obtain ⟨k', v'⟩ := e
    simp only [keysE, List.map_cons, List.nodup_cons] at hn
    rcases List.mem_cons.mp h with h | h
    · have h1 : k = k' := congrArg Prod.fst h
      have h2 : v = v' := congrArg Prod.snd h
      simp [lookupE, h1, h2]
    · have hk : ¬ k' = k := by
        intro hk
        apply hn.1
        rw [hk]
        exact List.mem_map_of_mem Prod.fst h
      simp only [lookupE, hk, if_false]
      exact ih hn.2 h

theorem lookupE_filter (k : String) (q : StreamInfo → Bool) (es : List (String × StreamInfo))
    (hn : (keysE es).Nodup) :
    lookupE k (es.filter (fun e => q e.2)) = (lookupE k es).filter q := by
  induction es with
  | nil => rfl
  | cons e es ih =>
    obtain ⟨k', v⟩ := e
    simp only [keysE, List.map_cons, List.nodup_cons] at hn
    by_cases hk : k' = k
    · have hnot : k ∉ keysE es := by rw [← hk]; exact hn.1
      have hnone : lookupE k es = none := (lookupE_eq_none_iff k es).mpr hnot
      by_cases hq : q v = true
      · simp [List.filter_cons, hq, lookupE, hk, Option.filter]
      · have ih' := ih hn.2
        rw [hnone] at ih'
        simp [List.filter_cons, hq, lookupE, hk, Option.filter, ih']
    · by_cases hq : q v = true
      · simp [List.filter_cons, hq, lookupE, hk, ih hn.2]
      · simp [List.filter_cons, hq, lookupE, hk, ih hn.2]

theorem activeE_filter_expired (config : Config) (now : Time)
    (es : List (String × StreamInfo)) :
    activeE (es.filter (fun e => !expired config now e.2)) +
      (es.filter (fun e => expired config now e.2)).length = activeE es := by
  induction es with
  | nil => rfl
  | cons e es ih =>
    rw [activeE_cons]
    by_cases hx : expired config now e.2 = true
    · have ha : e.2.IsActive = true := by
        unfold expired at hx
        simp only [Bool.and_eq_true] at hx
        exact hx.1
      simp only [List.filter_cons, hx, Bool.not_true, Bool.false_eq_true, if_false, if_true,
        List.length_cons, activeOf, ha]
      omega
    · have hx' : expired config now e.2 = false := by simpa using hx
      simp only [List.filter_cons, hx', Bool.not_false, Bool.false_eq_true, if_false, if_true]
      rw [activeE_cons]
      omega

theorem length_filter_keys (g : String → Bool) (q : StreamInfo → Bool)
    (es : List (String × StreamInfo)) (h : ∀ e ∈ es, g e.1 = q e.2) :
    ((keysE es).filter g).length = (es.filter (fun e => q e.2)).length := by
  induction es with
  | nil => rfl
  | cons e es ih =>
    have he := h e (List.mem_cons_self _ _)
    have ih' := ih (fun e' he' => h e' (List.mem_cons_of_mem _ he'))
    by_cases hq : q e.2 = true
    · simp [keysE, List.filter_cons, he, hq] at ih' ⊢
      exact ih'
    · simp [keysE, List.filter_cons, he, hq] at ih' ⊢
      exact ih'

theorem mem_sweepEffects (env : Env) (config : Config) (now : Time)
    (es : List (String × StreamInfo)) (e : String × StreamInfo) (x : Effect)
    (he : e ∈ es) (hx : expired config now e.2 = true) (hmem : x ∈ evictEffects env config e) :
    x ∈ sweepEffects env config now es := by
  induction es with
  | nil => exact absurd he (List.not_mem_nil _)
  | cons e' es ih =>
    rcases List.mem_cons.mp he with h | h
    · subst h
      simp only [sweepEffects, hx, if_true, List.mem_append]
      exact Or.inl hmem
    · by_cases hx' : expired config now e'.2 = true
      · simp only [sweepEffects, hx', if_true, List.mem_append]
        exact Or.inr (ih h)
      · simp only [sweepEffects, hx', if_false]
        exact ih h

theorem expired_eq_true_iff (config : Config) (now : Time) (stream : StreamInfo) :
    expired config now stream = true ↔
      (stream.IsActive = true ∧ Time.Sub now stream.LastAccess > config.CleanupDelay) := by
  unfold expired
  simp

theorem cleanupTick_lookup (env : Env) (m : Manager) (k : String) :
    (cleanupTick env m).m.streams.lookup k =
      (m.streams.lookup k).filter (fun stream => !expired m.config (env.Now 0) stream) := by
  show lookupE k (cleanupTick env m).m.streams.entries = _
  rw [(cleanupTick_entries env m).1]
  exact lookupE_filter k (fun stream => !expired m.config (env.Now 0) stream) m.streams.entries
    m.streams.nodup

theorem saturate_gt_iff (x d : Int) (hlo : -9223372036854775808 ≤ d)
    (hhi : d < 9223372036854775807) :
    (if x > 9223372036854775807 then (9223372036854775807 : Int)
      else if x < -9223372036854775808 then -9223372036854775808 else x) > d ↔ x > d := by
  split_ifs <;> constructor <;> intro h <;> omega

theorem Time.Sub_gt_iff (t u : Time) (d : Duration) (hlo : minDuration ≤ d)
    (hhi : d < maxDuration) : Time.Sub t u > d ↔ t - u > d :=
  saturate_gt_iff (t - u) d hlo hhi

theorem cleanupTick_removed_count (env : Env) (m : Manager) :
    (m.streams.keys.filter
        (fun k => ((cleanupTick env m).m.streams.lookup k).isNone)).length =
      (m.streams.entries.filter (fun e => expired m.config (env.Now 0) e.2)).length := by
  apply length_filter_keys
  intro e he
  have hl : m.streams.lookup e.1 = some e.2 :=
    lookupE_of_mem e.1 e.2 m.streams.entries m.streams.nodup he
  simp only [cleanupTick_lookup, hl]
  cases hx : expired m.config (env.Now 0) e.2 <;> simp [Option.filter, hx]

/-- C5. Sweep correctness: one tick of `cleanupWorker` at the instant `now`,
whatever the kill calls answer, removes exactly the records that are active and
have `now.Sub(LastAccess)` strictly greater than `CleanupDelay`: such a record
is gone afterwards, every other record (active and idle for at most the delay,
or not active) is still stored and unchanged, no record appears, and
`GetActiveStreamCount` decreases by exactly the number of ids removed.  For
every removed record the directory removal, and the kill when it has a process,
are issued: the scan goes through all records. -/
theorem cleanupTick_sweep (env : Env) (m : Manager) :
    (∀ k stream, m.streams.lookup k = some stream →
      (stream.IsActive = true ∧
        Time.Sub (env.Now 0) stream.LastAccess > m.config.CleanupDelay) →
      (cleanupTick env m).m.streams.lookup k = none) ∧
    (∀ k stream, m.streams.lookup k = some stream →
      ¬ (stream.IsActive = true ∧
        Time.Sub (env.Now 0) stream.LastAccess > m.config.CleanupDelay) →
      (cleanupTick env m).m.streams.lookup k = some stream) ∧
    (∀ k, m.streams.lookup k = none → (cleanupTick env m).m.streams.lookup k = none) ∧
    GetActiveStreamCount (cleanupTick env m).m +
      (m.streams.keys.filter
        (fun k => ((cleanupTick env m).m.streams.lookup k).isNone)).length =
      GetActiveStreamCount m ∧
    (∀ k stream, m.streams.lookup k = some stream →
      (stream.IsActive = true ∧
        Time.Sub (env.Now 0) stream.LastAccess > m.config.CleanupDelay) →
      Effect.RemoveAll (env.Join m.config.StreamDir k) ∈ (cleanupTick env m).effects ∧
      ∀ p, stream.Process = some p → Effect.Kill p ∈ (cleanupTick env m).effects) ∧
    (cleanupTick env m).m.config = m.config := by
  refine ⟨?_, ?_, ?_, ?_, ?_, (cleanupTick_entries env m).2.1⟩
  · intro k stream hl hx
    have hx' := (expired_eq_true_iff m.config (env.Now 0) stream).mpr hx
    rw [cleanupTick_lookup, hl]
    simp [Option.filter, hx']
  · intro k stream hl hx
    have hx' : expired m.config (env.Now 0) stream = false := by
      cases h : expired m.config (env.Now 0) stream with
      | false => rfl
      | true => exact absurd ((expired_eq_true_iff m.config (env.Now 0) stream).mp h) hx
    rw [cleanupTick_lookup, hl]
    simp [Option.filter, hx']
  · intro k hl
    rw [cleanupTick_lookup, hl]
    rfl
  · rw [cleanupTick_removed_count, GetActiveStreamCount_eq, GetActiveStreamCount_eq,
      (cleanupTick_entries env m).1]
    exact activeE_filter_expired m.config (env.Now 0) m.streams.entries
  · intro k stream hl hx
    have hx' := (expired_eq_true_iff m.config (env.Now 0) stream).mpr hx
    have hmem : (k, stream) ∈ m.streams.entries := mem_of_lookupE k stream m.streams.entries hl
    rw [(cleanupTick_entries env m).2.2]
    constructor
    · apply mem_sweepEffects env m.config (env.Now 0) m.streams.entries (k, stream) _ hmem hx'
      simp [evictEffects]
    · intro p hp
      apply mem_sweepEffects env m.config (env.Now 0) m.streams.entries (k, stream) _ hmem hx'
      simp [evictEffects, hp]

theorem cleanupTick_sweep_witness :
    (cleanupTick exEnvSweep exTwo).m.streams.lookup "cam1" = none ∧
    (cleanupTick exEnvSweep exTwo).m.streams.lookup "cam2" = some exRecord2 ∧
    GetActiveStreamCount exTwo = 2 ∧
    GetActiveStreamCount (cleanupTick exEnvSweep exTwo).m + 1 = 2 ∧
    Effect.Kill 3 ∈ (cleanupTick exEnvSweep exTwo).effects :=
  have h := cleanupTick_sweep exEnvSweep exTwo
  ⟨h.1 "cam1" exRecord (by decide) (by decide),
   h.2.1 "cam2" exRecord2 (by decide) (by decide),
   by decide,
   h.2.2.2.1.trans (by decide),
   (h.2.2.2.2.1 "cam1" exRecord (by decide) (by decide)).2 3 (by decide)⟩

end Stream
